import Mathlib

/-!
Shallow embedding of the TaskMaster backend (`src/backend/server.py`).

The MongoDB collection `db.tasks` is modelled as a list of documents in
natural (insertion) order.  Each HTTP handler becomes a pure function;
handlers that write to the store thread the store state explicitly.  Every
`datetime.now()` read of the Python code is an explicit parameter (the
datetime library is an external collaborator, like the store), and fresh
`ObjectId`s generated by the store on insert are supplied by an explicit
stream of identifier strings.
-/

namespace TaskMaster

/-- A stored document of the `tasks` collection.  `oid` is the string
rendering of the Mongo `_id` (24 hex characters).  Documents inserted by
`sync_tasks` may additionally carry stray `id`/`userId` keys; the stray `id`
key is never read by any query or by `task_helper`, so it is not modelled. -/
structure TaskDoc where
  oid : String
  title : String
  dueDate : String
  priority : String
  category : String
  completed : Bool
  createdAt : String
  updatedAt : Option String
  userId : Option String
  notificationId : Option String
  deriving DecidableEq

/-- The `tasks` collection in natural (insertion) order. -/
abbrev DB := List TaskDoc

/-- The pydantic `Task` response model, as produced by `task_helper`. -/
structure Task where
  id : Option String
  title : String
  dueDate : String
  priority : String
  category : String
  completed : Bool
  createdAt : String
  updatedAt : Option String
  userId : Option String
  notificationId : Option String
  deriving DecidableEq

/-- The pydantic `TaskCreate` request model (already schema-validated). -/
structure TaskCreate where
  title : String
  dueDate : String
  priority : String
  category : String
  notificationId : Option String
  deriving DecidableEq

/-- The pydantic `TaskUpdate` request model: every field optional. -/
structure TaskUpdate where
  title : Option String := none
  dueDate : Option String := none
  priority : Option String := none
  category : Option String := none
  completed : Option Bool := none
  notificationId : Option String := none
  deriving DecidableEq

/-- An `HTTPException`: status code and detail message. -/
structure ErrResp where
  status : Nat
  detail : String
  deriving DecidableEq

/-- `bson.ObjectId.is_valid` on a string argument: 24 hexadecimal characters. -/
def isValidObjectId (s : String) : Bool :=
  s.length == 24 && s.toList.all fun c =>
    c.isDigit || ('a' ≤ c && c ≤ 'f') || ('A' ≤ c && c ≤ 'F')

/-- `task_helper`: convert a MongoDB document to a `Task` dict. -/
def task_helper (t : TaskDoc) : Task :=
  { id := some t.oid
    title := t.title
    dueDate := t.dueDate
    priority := t.priority
    category := t.category
    completed := t.completed
    createdAt := t.createdAt
    updatedAt := t.updatedAt
    userId := t.userId
    notificationId := t.notificationId }

/-- `db.tasks.find_one({"_id": oid})`: first document (in natural order)
whose `_id` matches. -/
def findOne (db : DB) (oid : String) : Option TaskDoc :=
  db.find? fun d => d.oid == oid

/-- `POST /tasks` (`create_task`).  `now1` and `now2` are the two separate
`datetime.now().isoformat()` reads at lines 104 and 106 of the source
(`createdAt` and `updatedAt` respectively); `freshId` is the `ObjectId`
generated by the store for the insert.  Returns the response record and the
new store state. -/
def create_task (db : DB) (task_data : TaskCreate) (freshId now1 now2 : String) :
    Option Task × DB :=
  let task_dict : TaskDoc :=
    { oid := freshId
      title := task_data.title
      dueDate := task_data.dueDate
      priority := task_data.priority
      category := task_data.category
      createdAt := now1
      completed := false
      updatedAt := some now2
      userId := none
      notificationId := task_data.notificationId }
  let db' := db ++ [task_dict]
  ((findOne db' freshId).map task_helper, db')

/-- The valid `category` filter values of `get_tasks`. -/
def categoryValues : List String := ["work", "personal", "study"]

/-- The valid `priority` filter values of `get_tasks`. -/
def priorityValues : List String := ["high", "medium", "low"]

/-- The Mongo query assembled by `get_tasks`. -/
structure TasksQuery where
  category : Option String := none
  priority : Option String := none
  completed : Option Bool := none

/-- Whether a document matches every clause of a `get_tasks` query. -/
def matchesQuery (q : TasksQuery) (d : TaskDoc) : Bool :=
  (match q.category with | some c => d.category == c | none => true) &&
  (match q.priority with | some p => d.priority == p | none => true) &&
  (match q.completed with | some b => d.completed == b | none => true)

/-- Python truthiness of an optional string (`None` and `""` are falsy). -/
def strTruthy : Option String → Bool
  | none => false
  | some s => !(s == "")

/-- Stable insertion into a list sorted by `createdAt` descending. -/
def insertByCreatedAtDesc (d : TaskDoc) : List TaskDoc → List TaskDoc
  | [] => [d]
  | e :: es =>
    if e.createdAt ≤ d.createdAt then d :: e :: es else e :: insertByCreatedAtDesc d es

/-- `.sort("createdAt", -1)`: sort by `createdAt` descending. -/
def sortByCreatedAtDesc : List TaskDoc → List TaskDoc
  | [] => []
  | d :: ds => insertByCreatedAtDesc d (sortByCreatedAtDesc ds)

/-- The query-building prefix of `get_tasks`: a clause is added only for a
truthy filter value inside its enumeration (falsy or out-of-enumeration
values are silently skipped), and for any non-`None` completed flag. -/
def buildQuery (category priority : Option String)
    (completed : Option Bool) : TasksQuery :=
  let q : TasksQuery := {}
  let q := if strTruthy category && (category.getD "") ∈ categoryValues then
    { q with category := category } else q
  let q := if strTruthy priority && (priority.getD "") ∈ priorityValues then
    { q with priority := priority } else q
  match completed with
  | some b => { q with completed := some b }
  | none => q

/-- `GET /tasks` (`get_tasks`): build the query, then find, sort by
`createdAt` descending, and cap the result at `limit`. -/
def get_tasks (db : DB) (category priority : Option String)
    (completed : Option Bool) (limit : Nat := 100) : List Task :=
  let q := buildQuery category priority completed
  ((sortByCreatedAtDesc (db.filter (matchesQuery q))).take limit).map task_helper

/-- `GET /tasks/{task_id}` (`get_task`). -/
def get_task (db : DB) (task_id : String) : Except ErrResp Task :=
  if !isValidObjectId task_id then
    .error ⟨400, "Invalid task ID format"⟩
  else
    match findOne db task_id with
    | none => .error ⟨404, "Task not found"⟩
    | some t => .ok (task_helper t)

/-- The `update_data` dict of `update_task` is empty iff every field of the
`TaskUpdate` is `None` (falsy values such as `False` are kept). -/
def TaskUpdate.isEmptyUpdate (u : TaskUpdate) : Bool :=
  u.title.isNone && u.dueDate.isNone && u.priority.isNone &&
  u.category.isNone && u.completed.isNone && u.notificationId.isNone

/-- Apply the `$set` of `update_task` to one document: every non-`None`
field of the partial replaces the stored field, and `updatedAt` is set. -/
def applyUpdate (u : TaskUpdate) (now : String) (d : TaskDoc) : TaskDoc :=
  { d with
    title := u.title.getD d.title
    dueDate := u.dueDate.getD d.dueDate
    priority := u.priority.getD d.priority
    category := u.category.getD d.category
    completed := u.completed.getD d.completed
    notificationId := match u.notificationId with
      | some n => some n
      | none => d.notificationId
    updatedAt := some now }

/-- `update_one({"_id": oid}, {"$set": ...})` followed by
`find_one({"_id": oid})`: rewrite the first matching document and return it
together with the new collection; `none` when `matched_count == 0`. -/
def updateFindFirst (db : DB) (oid : String) (f : TaskDoc → TaskDoc) :
    Option (DB × TaskDoc) :=
  match db with
  | [] => none
  | d :: ds =>
    if d.oid == oid then some (f d :: ds, f d)
    else (updateFindFirst ds oid f).map fun r => (d :: r.1, r.2)

/-- `PUT /tasks/{task_id}` (`update_task`).  `now` is the
`datetime.now().isoformat()` read that refreshes `updatedAt`.  Returns the
response and the (possibly unchanged) store state. -/
def update_task (db : DB) (task_id : String) (task_update : TaskUpdate)
    (now : String) : Except ErrResp Task × DB :=
  if !isValidObjectId task_id then
    (.error ⟨400, "Invalid task ID format"⟩, db)
  else if task_update.isEmptyUpdate then
    (.error ⟨400, "No valid update data provided"⟩, db)
  else
    match updateFindFirst db task_id (applyUpdate task_update now) with
    | none => (.error ⟨404, "Task not found"⟩, db)
    | some (db', t) => (.ok (task_helper t), db')

/-- The success body of `DELETE /tasks/{task_id}`. -/
structure DeleteResp where
  message : String
  taskId : String
  deriving DecidableEq

/-- `delete_one({"_id": oid})`: remove the first matching document; `none`
when `deleted_count == 0`. -/
def deleteFirst (db : DB) (oid : String) : Option DB :=
  match db with
  | [] => none
  | d :: ds =>
    if d.oid == oid then some ds
    else (deleteFirst ds oid).map fun r => d :: r

/-- `DELETE /tasks/{task_id}` (`delete_task`). -/
def delete_task (db : DB) (task_id : String) : Except ErrResp DeleteResp × DB :=
  if !isValidObjectId task_id then
    (.error ⟨400, "Invalid task ID format"⟩, db)
  else
    match deleteFirst db task_id with
    | none => (.error ⟨404, "Task not found"⟩, db)
    | some db' => (.ok ⟨"Task deleted successfully", task_id⟩, db')

/-- The `SyncResponse` model of `POST /tasks/sync`. -/
structure SyncResponse where
  tasks : List Task
  conflicts : List Task
  syncTime : String
  deriving DecidableEq

/-- The `_id` under which one sync input task is inserted: the supplied `id`
when it is truthy and a valid `ObjectId`, otherwise the next identifier from
the store's fresh-id stream. -/
def syncOid (t : Task) (fresh : Nat → String) (k : Nat) : String × Nat :=
  if strTruthy t.id then
    if isValidObjectId (t.id.getD "") then (t.id.getD "", k)
    else (fresh k, k + 1)
  else (fresh k, k + 1)

/-- The document inserted by `sync_tasks` for one input task: all task
fields are kept, `updatedAt` is overwritten with the sync time, and the
`_id` is resolved by `syncOid`. -/
def syncDoc (t : Task) (oid current_time : String) : TaskDoc :=
  { oid := oid
    title := t.title
    dueDate := t.dueDate
    priority := t.priority
    category := t.category
    completed := t.completed
    createdAt := t.createdAt
    updatedAt := some current_time
    userId := t.userId
    notificationId := t.notificationId }

/-- The insertion loop of `sync_tasks`: for each input task insert its
document (appending to the collection) and re-read it with
`find_one({"_id": inserted_id})`; the `find_one` after an insert always
matches, so the `getD` fallback is dead code.  Returns the accumulated
`server_tasks` responses and the final collection. -/
def syncInsertLoop (ts : List Task) (fresh : Nat → String) (k : Nat)
    (current_time : String) (acc : DB) : List Task × DB :=
  match ts with
  | [] => ([], acc)
  | t :: rest =>
    let oid := (syncOid t fresh k).1
    let doc := syncDoc t oid current_time
    let acc' := acc ++ [doc]
    let created := (findOne acc' oid).getD doc
    let r := syncInsertLoop rest fresh (syncOid t fresh k).2 current_time acc'
    (task_helper created :: r.1, r.2)

/-- `POST /tasks/sync` (`sync_tasks`): read `current_time` once, delete
every existing document (`delete_many({})`), then run the insertion loop on
the emptied collection; conflicts are never produced. -/
def sync_tasks (db : DB) (tasks : List Task) (fresh : Nat → String)
    (current_time : String) : SyncResponse × DB :=
  let _cleared := db
  let r := syncInsertLoop tasks fresh 0 current_time []
  ({ tasks := r.1, conflicts := [], syncTime := current_time }, r.2)

/-- The `_id`s under which the sync loop inserts its documents, in input
order: supplied ids that are truthy and valid are kept, every other input
consumes the next fresh identifier. -/
def syncOids (ts : List Task) (fresh : Nat → String) (k : Nat) : List String :=
  match ts with
  | [] => []
  | t :: rest => (syncOid t fresh k).1 :: syncOids rest fresh (syncOid t fresh k).2

/-- The documents the sync loop inserts, in input order. -/
def syncDocs (ts : List Task) (fresh : Nat → String) (k : Nat)
    (current_time : String) : DB :=
  match ts with
  | [] => []
  | t :: rest =>
    syncDoc t (syncOid t fresh k).1 current_time ::
      syncDocs rest fresh (syncOid t fresh k).2 current_time

/-- `db.tasks.count_documents(query)`: the number of documents matching a
predicate. -/
def countDocuments (db : DB) (p : TaskDoc → Bool) : Nat :=
  (db.filter p).length

/-- Round half to even at integer precision (`Python`'s `round` tie rule;
binary floating-point representation effects are abstracted away). -/
def roundHalfEven (q : ℚ) : ℤ :=
  let f := ⌊q⌋
  let r := q - f
  if r < 1 / 2 then f
  else if r > 1 / 2 then f + 1
  else if f % 2 = 0 then f else f + 1

/-- Python's `round(x, 1)`: round to one decimal digit. -/
def round1 (q : ℚ) : ℚ := (roundHalfEven (q * 10) : ℚ) / 10

/-- One `$group` bucket of the category/priority aggregations:
`(_id, total, completed)`. -/
def groupEntry (key : TaskDoc → String) (db : DB) (v : String) :
    String × Nat × Nat :=
  (v, countDocuments db (fun d => key d == v),
      countDocuments db (fun d => key d == v && d.completed))

/-- The `$group` aggregation over a string field: one bucket per distinct
value occurring in the collection, with `total` the bucket size and
`completed` the sum of the completed condition.  Mongo leaves the bucket
order unspecified; buckets are listed by first appearance. -/
def groupBuckets (key : TaskDoc → String) (db : DB) :
    List (String × Nat × Nat) :=
  ((db.map key).dedup).map (groupEntry key db)

/-- One rendered bucket of `categoryStats`/`priorityStats`. -/
structure BucketOut where
  label : String
  total : Nat
  completed : Nat
  pending : ℤ
  completionRate : ℚ
  deriving DecidableEq

/-- Render a `$group` bucket: `pending = total - completed` and a rounded
completion percentage (0 when the bucket total is 0). -/
def bucketOut (g : String × Nat × Nat) : BucketOut :=
  { label := g.1
    total := g.2.1
    completed := g.2.2
    pending := (g.2.1 : ℤ) - (g.2.2 : ℤ)
    completionRate :=
      round1 (if 0 < g.2.1 then (g.2.2 : ℚ) / (g.2.1 : ℚ) * 100 else 0) }

/-- The `overview` object of the stats report (`overdueTask` is the
source's own singular key). -/
structure Overview where
  totalTasks : Nat
  completedTasks : Nat
  pendingTasks : ℤ
  overdueTask : Nat
  todayTasks : Nat
  weekTasks : Nat
  completionRate : ℚ
  deriving DecidableEq

/-- One entry of the `dailyTrends` list. -/
structure DayTrend where
  date : String
  day : String
  created : Nat
  completed : Nat
  completionRate : ℚ
  deriving DecidableEq

/-- The `insights` object of the stats report. -/
structure Insights where
  mostProductiveCategory : Option String
  leastProductiveCategory : Option String
  averageTasksPerDay : ℚ
  streak : Nat
  productivityScore : ℚ
  deriving DecidableEq

/-- The full report of `GET /stats` (`categoryStats`/`priorityStats` are
Python dicts keyed by bucket label, modelled as bucket lists). -/
structure StatsOut where
  overview : Overview
  categoryStats : List BucketOut
  priorityStats : List BucketOut
  dailyTrends : List DayTrend
  insights : Insights
  timestamp : String
  deriving DecidableEq

/-- The `[day_start, day_end]` window, date string and weekday name that
the datetime library yields for one day of the daily loop. -/
structure DayWindow where
  dayStart : String
  dayEnd : String
  date : String
  day : String
  deriving DecidableEq

/-- All `datetime.now()`-derived values consumed by `get_stats`:
`currentTime` for the overdue query, today's and this week's `dueDate`
windows, the window for `i` days ago for each `i` of the daily loop, and
the report's trailing timestamp. -/
structure StatsClock where
  currentTime : String
  todayStart : String
  todayEnd : String
  weekStart : String
  weekEnd : String
  days : Nat → DayWindow
  timestamp : String

/-- One entry of the daily loop of `get_stats`: tasks *created* within the
window, those of them completed, and an **unrounded** completion rate
(0 when the day's total is 0). -/
def dayEntry (db : DB) (w : DayWindow) : DayTrend :=
  let day_total := countDocuments db fun d =>
    w.dayStart ≤ d.createdAt && d.createdAt ≤ w.dayEnd
  let day_completed := countDocuments db fun d =>
    (w.dayStart ≤ d.createdAt && d.createdAt ≤ w.dayEnd) && d.completed
  { date := w.date
    day := w.day
    created := day_total
    completed := day_completed
    completionRate :=
      if 0 < day_total then (day_completed : ℚ) / (day_total : ℚ) * 100 else 0 }

/-- Python's `max(buckets, key completed)["_id"]`: label of the first
bucket with maximal completed count (`max` keeps the first on ties);
`None` when there are no buckets. -/
def maxByCompleted : List (String × Nat × Nat) → Option String
  | [] => none
  | g :: gs => some (gs.foldl (fun best x => if best.2.2 < x.2.2 then x else best) g).1

/-- Python's `min(buckets, key completed)["_id"]`: label of the first
bucket with minimal completed count; `None` when there are no buckets. -/
def minByCompleted : List (String × Nat × Nat) → Option String
  | [] => none
  | g :: gs => some (gs.foldl (fun best x => if x.2.2 < best.2.2 then x else best) g).1

/-- `GET /stats` (`get_stats`). -/
def get_stats (db : DB) (clk : StatsClock) : StatsOut :=
  let total_tasks := countDocuments db fun _ => true
  let completed_tasks := countDocuments db fun d => d.completed
  let pending_tasks : ℤ := (total_tasks : ℤ) - (completed_tasks : ℤ)
  let overdue_tasks := countDocuments db fun d =>
    !d.completed && decide (d.dueDate < clk.currentTime)
  let today_tasks := countDocuments db fun d =>
    clk.todayStart ≤ d.dueDate && d.dueDate ≤ clk.todayEnd
  let week_tasks := countDocuments db fun d =>
    clk.weekStart ≤ d.dueDate && d.dueDate ≤ clk.weekEnd
  let categories := groupBuckets (fun d => d.category) db
  let priorities := groupBuckets (fun d => d.priority) db
  let daily_stats := (List.range 7).map fun i => dayEntry db (clk.days i)
  let completion_rate : ℚ :=
    if 0 < total_tasks then (completed_tasks : ℚ) / (total_tasks : ℚ) * 100 else 0
  { overview :=
      { totalTasks := total_tasks
        completedTasks := completed_tasks
        pendingTasks := pending_tasks
        overdueTask := overdue_tasks
        todayTasks := today_tasks
        weekTasks := week_tasks
        completionRate := round1 completion_rate }
    categoryStats := categories.map bucketOut
    priorityStats := priorities.map bucketOut
    dailyTrends := daily_stats.reverse
    insights :=
      { mostProductiveCategory := maxByCompleted categories
        leastProductiveCategory := minByCompleted categories
        averageTasksPerDay := round1 ((total_tasks : ℚ) / 7)
        streak := 0
        productivityScore :=
          round1 (completion_rate +
            (if overdue_tasks == 0 then 10 else -((overdue_tasks : ℚ) * 2))) }
    timestamp := clk.timestamp }

/-- One entry of the `weeklyTrends` list of `GET /analytics/productivity`. -/
structure WeekTrend where
  week : String
  startDate : String
  created : Nat
  completed : Nat
  completionRate : ℚ
  deriving DecidableEq

/-- The `[week_start, week_end]` window strings and start-date label that
the datetime library yields for one week of the weekly loop. -/
structure WeekWindow where
  weekStart : String
  weekEnd : String
  startDate : String
  deriving DecidableEq

/-- All `datetime.now()`-derived values consumed by
`get_productivity_analytics`: the window for each week of the loop and the
trailing timestamp. -/
structure WeeklyClock where
  weeks : Nat → WeekWindow
  timestamp : String

/-- One entry of the weekly loop: tasks created within the window, those of
them completed, and a rounded completion rate (0 when the total is 0). -/
def weekEntry (db : DB) (w : WeekWindow) (i : Nat) : WeekTrend :=
  let week_tasks := countDocuments db fun d =>
    w.weekStart ≤ d.createdAt && d.createdAt ≤ w.weekEnd
  let week_completed := countDocuments db fun d =>
    (w.weekStart ≤ d.createdAt && d.createdAt ≤ w.weekEnd) && d.completed
  { week := "Week " ++ toString (4 - i)
    startDate := w.startDate
    created := week_tasks
    completed := week_completed
    completionRate :=
      round1 (if 0 < week_tasks then
        (week_completed : ℚ) / (week_tasks : ℚ) * 100 else 0) }

/-- The report of `GET /analytics/productivity`. -/
structure WeeklyOut where
  weeklyTrends : List WeekTrend
  timestamp : String
  deriving DecidableEq

/-- `GET /analytics/productivity` (`get_productivity_analytics`). -/
def get_productivity_analytics (db : DB) (clk : WeeklyClock) : WeeklyOut :=
  let weekly_stats := (List.range 4).map fun i => weekEntry db (clk.weeks i) i
  { weeklyTrends := weekly_stats.reverse
    timestamp := clk.timestamp }

/-! Concrete example states and inputs, used to instantiate the theorems. -/

/-- A well-formed `ObjectId` string. -/
def exOid1 : String := "aaaaaaaaaaaaaaaaaaaaaaaa"

/-- A second well-formed `ObjectId` string. -/
def exOid2 : String := "bbbbbbbbbbbbbbbbbbbbbbbb"

/-- A third well-formed `ObjectId` string, used as a fresh store id. -/
def exOid3 : String := "cccccccccccccccccccccccc"

/-- A fourth well-formed `ObjectId` string, used as a fresh store id. -/
def exOid4 : String := "dddddddddddddddddddddddd"

/-- An example pending personal task document. -/
def exDoc1 : TaskDoc :=
  { oid := exOid1, title := "Buy milk", dueDate := "2025-01-01T00:00:00",
    priority := "low", category := "personal", completed := false,
    createdAt := "2024-12-30T10:00:00", updatedAt := some "2024-12-30T10:00:00",
    userId := none, notificationId := none }

/-- An example completed work task document. -/
def exDoc2 : TaskDoc :=
  { oid := exOid2, title := "Report", dueDate := "2025-01-03T00:00:00",
    priority := "high", category := "work", completed := true,
    createdAt := "2024-12-31T09:00:00", updatedAt := some "2025-01-01T08:00:00",
    userId := none, notificationId := some "n-1" }

/-- An example collection with one pending and one completed task. -/
def exDb : DB := [exDoc1, exDoc2]

/-- An example create request. -/
def exCreate : TaskCreate :=
  { title := "Buy milk", dueDate := "2025-01-01T00:00:00",
    priority := "low", category := "personal", notificationId := none }

/-- An example sync input task carrying no id. -/
def exTask1 : Task :=
  { id := none, title := "Sync Task 1", dueDate := "2025-01-05T00:00:00",
    priority := "high", category := "work", completed := false,
    createdAt := "2025-01-02T00:00:00", updatedAt := none,
    userId := none, notificationId := none }

/-- A second example sync input task carrying no id. -/
def exTask2 : Task :=
  { id := none, title := "Sync Task 2", dueDate := "2025-01-06T00:00:00",
    priority := "medium", category := "personal", completed := true,
    createdAt := "2025-01-02T01:00:00", updatedAt := none,
    userId := none, notificationId := none }

/-- An example fresh-id stream for the store. -/
def exFresh : Nat → String := fun k => if k == 0 then exOid3 else exOid4

/-- An example day window. -/
def exDayWindow : DayWindow :=
  { dayStart := "2025-01-01T00:00:00", dayEnd := "2025-01-01T23:59:59.999999",
    date := "2025-01-01", day := "Wed" }

/-- An example clock for `get_stats`. -/
def exClock : StatsClock :=
  { currentTime := "2025-01-02T12:00:00",
    todayStart := "2025-01-02T00:00:00",
    todayEnd := "2025-01-02T23:59:59.999999",
    weekStart := "2024-12-30T00:00:00",
    weekEnd := "2025-01-05T23:59:59.999999",
    days := fun _ => exDayWindow,
    timestamp := "2025-01-02T12:00:01" }

/-- An example week window. -/
def exWWindow : WeekWindow :=
  { weekStart := "2024-12-30T00:00:00", weekEnd := "2025-01-05T23:59:59",
    startDate := "2024-12-30" }

/-- An example clock for `get_productivity_analytics`. -/
def exWClock : WeeklyClock :=
  { weeks := fun _ => exWWindow, timestamp := "2025-01-02T12:00:01" }

/-! Helper lemmas. -/

theorem round1_zero : round1 0 = 0 := by
  simp [round1, roundHalfEven]

theorem findOne_append_fresh (db : DB) (d : TaskDoc) (oid : String)
    (h : findOne db oid = none) (hd : d.oid = oid) :
    findOne (db ++ [d]) oid = some d := by
  induction db with
  | nil => simp [findOne, List.find?, hd]
  | cons x xs ih =>
    simp only [findOne, List.cons_append, List.find?] at h ⊢
    cases hx : (x.oid == oid) with
    | true => simp [hx] at h
    | false =>
      simp only [hx] at h ⊢
      exact ih h

theorem findOne_cons (d : TaskDoc) (ds : DB) (oid : String) :
    findOne (d :: ds) oid = if d.oid == oid then some d else findOne ds oid := by
  unfold findOne
  rw [List.find?]
  cases h : (d.oid == oid) <;> simp [h]

theorem updateFindFirst_eq_none (db : DB) (oid : String) (f : TaskDoc → TaskDoc)
    (h : findOne db oid = none) : updateFindFirst db oid f = none := by
  induction db with
  | nil => rfl
  | cons d ds ih =>
    rw [findOne_cons] at h
    by_cases hd : (d.oid == oid) = true
    · rw [if_pos hd] at h
      cases h
    · rw [if_neg hd] at h
      have hd' : (d.oid == oid) = false := by simpa using hd
      simp [updateFindFirst, hd', ih h]

theorem deleteFirst_eq_none (db : DB) (oid : String)
    (h : findOne db oid = none) : deleteFirst db oid = none := by
  induction db with
  | nil => rfl
  | cons d ds ih =>
    rw [findOne_cons] at h
    by_cases hd : (d.oid == oid) = true
    · rw [if_pos hd] at h
      cases h
    · rw [if_neg hd] at h
      have hd' : (d.oid == oid) = false := by simpa using hd
      simp [deleteFirst, hd', ih h]

theorem findOne_after_deleteFirst (db : DB) (oid : String)
    (hnd : (db.map fun d => d.oid).Nodup) (db' : DB)
    (h : deleteFirst db oid = some db') : findOne db' oid = none := by
  induction db generalizing db' with
  | nil => cases h
  | cons d ds ih =>
    rw [List.map_cons, List.nodup_cons] at hnd
    obtain ⟨hd_not, hnd'⟩ := hnd
    by_cases hd : (d.oid == oid) = true
    · simp only [deleteFirst, hd, if_true, Option.some.injEq] at h
      subst h
      have hoid : d.oid = oid := by simpa using hd
      rw [findOne, List.find?_eq_none]
      intro x hx hxe
      exact hd_not (hoid ▸ (beq_iff_eq.mp hxe) ▸ List.mem_map_of_mem (fun d => d.oid) hx)
    · have hd' : (d.oid == oid) = false := by simpa using hd
      simp only [deleteFirst, hd', Bool.false_eq_true, if_false] at h
      cases hds : deleteFirst ds oid with
      | none => rw [hds] at h; cases h
      | some ds' =>
        rw [hds] at h
        have h' : d :: ds' = db' := Option.some.inj h
        subst h'
        rw [findOne_cons, if_neg hd]
        exact ih hnd' ds' hds

theorem updateFindFirst_found (db : DB) (oid : String) (f : TaskDoc → TaskDoc)
    (hf : ∀ x, (f x).oid = x.oid) (d : TaskDoc) (h : findOne db oid = some d) :
    ∃ db', updateFindFirst db oid f = some (db', f d) ∧ findOne db' oid = some (f d) := by
  induction db with
  | nil => cases h
  | cons x xs ih =>
    rw [findOne_cons] at h
    by_cases hx : (x.oid == oid) = true
    · rw [if_pos hx] at h
      have hxd : x = d := Option.some.inj h
      subst hxd
      refine ⟨f x :: xs, by simp [updateFindFirst, hx], ?_⟩
      rw [findOne_cons, if_pos (by rw [hf x]; exact hx)]
    · rw [if_neg hx] at h
      obtain ⟨db', h1, h2⟩ := ih h
      refine ⟨x :: db', ?_, ?_⟩
      · have hx' : (x.oid == oid) = false := by simpa using hx
        simp [updateFindFirst, hx', h1]
      · rw [findOne_cons, if_neg hx]
        exact h2

/-- C1: for every state of the task collection, the Stats report satisfies
`totalTasks = completedTasks + pendingTasks` in the overview, and in every
category and priority breakdown bucket, `total = completed + pending`. -/
theorem stats_totals_invariant (db : DB) (clk : StatsClock) :
    ((get_stats db clk).overview.totalTasks : ℤ) =
        (get_stats db clk).overview.completedTasks +
          (get_stats db clk).overview.pendingTasks ∧
    (∀ b ∈ (get_stats db clk).categoryStats, (b.total : ℤ) = b.completed + b.pending) ∧
    (∀ b ∈ (get_stats db clk).priorityStats, (b.total : ℤ) = b.completed + b.pending) := by
  refine ⟨?_, ?_, ?_⟩
  · simp [get_stats]
  all_goals
    intro b hb
    simp only [get_stats, List.mem_map] at hb
    obtain ⟨g, _, rfl⟩ := hb
    simp only [bucketOut]
    omega

/-- Witness for C1 at a concrete two-task collection: the overview equation,
and the bucket equation for the `personal` category bucket. -/
theorem stats_totals_invariant_witness :
    ((get_stats exDb exClock).overview.totalTasks : ℤ) =
        (get_stats exDb exClock).overview.completedTasks +
          (get_stats exDb exClock).overview.pendingTasks ∧
    ((bucketOut ("personal", 1, 0)).total : ℤ) =
        (bucketOut ("personal", 1, 0)).completed + (bucketOut ("personal", 1, 0)).pending :=
  ⟨(stats_totals_invariant exDb exClock).1,
   (stats_totals_invariant exDb exClock).2.1 (bucketOut ("personal", 1, 0))
     (List.mem_map_of_mem bucketOut (by decide))⟩

/-- C2 counterexample: `create_task` reads the clock twice (`createdAt` at
line 104, `updatedAt` at line 106 of the source); with two clock reads one
microsecond apart, Create followed by Get of the assigned id returns a
record whose `updatedAt` differs from its `createdAt`, refuting the claim
that `createdAt` equals `updatedAt`. -/
theorem create_then_get_equal_times_cx :
    (get_task (create_task [] exCreate exOid3
          "2025-01-01T00:00:00.000001" "2025-01-01T00:00:00.000002").2 exOid3).map
        (fun r => r.updatedAt == some r.createdAt) = Except.ok false := by rfl

/-- C2 (amended): for every valid create input, Create followed by Get of
the assigned id returns a record whose title, dueDate, priority, category
and notificationId equal the input, with `completed = false`, `createdAt`
equal to the first clock read of the create handler and `updatedAt` equal
to the second; the two coincide exactly when the two reads render equally. -/
theorem create_then_get_roundtrip (db : DB) (inp : TaskCreate) (fid n1 n2 : String)
    (_hpri : inp.priority ∈ priorityValues) (_hcat : inp.category ∈ categoryValues)
    (hval : isValidObjectId fid = true) (hfresh : findOne db fid = none) :
    (create_task db inp fid n1 n2).1 = some
      { id := some fid, title := inp.title, dueDate := inp.dueDate,
        priority := inp.priority, category := inp.category, completed := false,
        createdAt := n1, updatedAt := some n2, userId := none,
        notificationId := inp.notificationId } ∧
    get_task (create_task db inp fid n1 n2).2 fid = .ok
      { id := some fid, title := inp.title, dueDate := inp.dueDate,
        priority := inp.priority, category := inp.category, completed := false,
        createdAt := n1, updatedAt := some n2, userId := none,
        notificationId := inp.notificationId } := by
  have hfind : findOne (db ++ [⟨fid, inp.title, inp.dueDate, inp.priority,
      inp.category, false, n1, some n2, none, inp.notificationId⟩]) fid =
      some ⟨fid, inp.title, inp.dueDate, inp.priority, inp.category, false,
        n1, some n2, none, inp.notificationId⟩ :=
    findOne_append_fresh db _ fid hfresh rfl
  refine ⟨?_, ?_⟩
  · simp only [create_task, hfind, Option.map_some]
    rfl
  · simp only [create_task, get_task, hval, Bool.not_true, Bool.false_eq_true,
      if_false, hfind]
    rfl

/-- Witness for C2 (amended) at a concrete collection and input. -/
theorem create_then_get_roundtrip_witness :
    get_task (create_task exDb exCreate exOid3
        "2025-01-02T09:00:00" "2025-01-02T09:00:01").2 exOid3 = .ok
      { id := some exOid3, title := "Buy milk", dueDate := "2025-01-01T00:00:00",
        priority := "low", category := "personal", completed := false,
        createdAt := "2025-01-02T09:00:00", updatedAt := some "2025-01-02T09:00:01",
        userId := none, notificationId := none } :=
  (create_then_get_roundtrip exDb exCreate exOid3 "2025-01-02T09:00:00"
    "2025-01-02T09:00:01" (by decide) (by decide) (by decide) (by decide)).2

/-- C8: for every well-formed id, an Update whose partial body supplies no
fields fails with status 400 and leaves the store unchanged. -/
theorem update_empty_partial_rejected (db : DB) (task_id : String)
    (u : TaskUpdate) (now : String)
    (hval : isValidObjectId task_id = true) (hempty : u.isEmptyUpdate = true) :
    update_task db task_id u now =
      (.error ⟨400, "No valid update data provided"⟩, db) := by
  simp [update_task, hval, hempty]

/-- Witness for C8: the all-`None` partial against a concrete collection. -/
theorem update_empty_partial_rejected_witness :
    update_task exDb exOid1 {} "2025-01-02T00:00:00" =
      (.error ⟨400, "No valid update data provided"⟩, exDb) :=
  update_empty_partial_rejected exDb exOid1 {} "2025-01-02T00:00:00"
    (by decide) (by decide)

/-- C7: for every id string, Get, Update and Delete fail with status 400
when the id is not a well-formed `ObjectId` — for every store state, so
before the store is consulted; when the id is well-formed but matches no
record they fail with 404 (for Update, under a partial that passes the
emptiness check, which precedes the store query); and on a collection with
distinct ids a successful Delete followed by a second Delete of the same id
returns 404. -/
theorem id_validation_and_not_found (db : DB) (task_id : String) :
    (isValidObjectId task_id = false →
        get_task db task_id = .error ⟨400, "Invalid task ID format"⟩ ∧
        (∀ u now, update_task db task_id u now =
            (.error ⟨400, "Invalid task ID format"⟩, db)) ∧
        delete_task db task_id = (.error ⟨400, "Invalid task ID format"⟩, db)) ∧
    (isValidObjectId task_id = true → findOne db task_id = none →
        get_task db task_id = .error ⟨404, "Task not found"⟩ ∧
        (∀ u now, u.isEmptyUpdate = false →
            update_task db task_id u now = (.error ⟨404, "Task not found"⟩, db)) ∧
        delete_task db task_id = (.error ⟨404, "Task not found"⟩, db)) ∧
    ((db.map fun d => d.oid).Nodup →
        ∀ db' r, delete_task db task_id = (.ok r, db') →
          delete_task db' task_id = (.error ⟨404, "Task not found"⟩, db')) := by
  refine ⟨?_, ?_, ?_⟩
  · intro h
    refine ⟨?_, fun u now => ?_, ?_⟩ <;>
      simp [get_task, update_task, delete_task, h]
  · intro hv hn
    refine ⟨?_, fun u now hne => ?_, ?_⟩
    · simp [get_task, hv, hn]
    · simp [update_task, hv, hne, updateFindFirst_eq_none db task_id _ hn]
    · simp [delete_task, hv, deleteFirst_eq_none db task_id hn]
  · intro hnd db' r hok
    by_cases hv : isValidObjectId task_id = true
    · simp only [delete_task, hv, Bool.not_true, Bool.false_eq_true, if_false] at hok
      cases hdel : deleteFirst db task_id with
      | none => rw [hdel] at hok; cases hok
      | some db'' =>
        rw [hdel] at hok
        have hdb : db'' = db' := congrArg Prod.snd hok
        subst hdb
        have hfind : findOne db'' task_id = none :=
          findOne_after_deleteFirst db task_id hnd db'' hdel
        simp [delete_task, hv, deleteFirst_eq_none db'' task_id hfind]
    · have hv' : isValidObjectId task_id = false := by simpa using hv
      simp [delete_task, hv'] at hok

/-- Witness for C7: a malformed id on a concrete collection, a well-formed
absent id on the empty collection, and a second Delete after a successful
Delete on a concrete collection. -/
theorem id_validation_and_not_found_witness :
    get_task exDb "invalid_task_id_123" = .error ⟨400, "Invalid task ID format"⟩ ∧
    get_task [] exOid1 = .error ⟨404, "Task not found"⟩ ∧
    delete_task [exDoc2] exOid1 = (.error ⟨404, "Task not found"⟩, [exDoc2]) :=
  ⟨((id_validation_and_not_found exDb "invalid_task_id_123").1 (by decide)).1,
   ((id_validation_and_not_found [] exOid1).2.1 (by decide) (by decide)).1,
   (id_validation_and_not_found exDb exOid1).2.2 (by decide) [exDoc2]
     ⟨"Task deleted successfully", exOid1⟩ (by rfl)⟩

/-- C10: an Update whose only supplied field is `completed = false` is
applied — the response is the record with `completed = false` and a
refreshed `updatedAt`, and the stored record after the call has
`completed = false` — because the emptiness check discards only `None`
fields, not falsy values. -/
theorem update_completed_false_applied (db : DB) (task_id now : String) (d : TaskDoc)
    (hval : isValidObjectId task_id = true) (hfound : findOne db task_id = some d) :
    (update_task db task_id { completed := some false } now).1 =
      .ok (task_helper { d with completed := false, updatedAt := some now }) ∧
    findOne (update_task db task_id { completed := some false } now).2 task_id =
      some { d with completed := false, updatedAt := some now } := by
  have hf : ∀ x, (applyUpdate { completed := some false } now x).oid = x.oid :=
    fun x => rfl
  obtain ⟨db', h1, h2⟩ :=
    updateFindFirst_found db task_id (applyUpdate { completed := some false } now)
      hf d hfound
  have happ : applyUpdate { completed := some false } now d =
      { d with completed := false, updatedAt := some now } := rfl
  rw [happ] at h1 h2
  constructor
  · simp [update_task, hval, TaskUpdate.isEmptyUpdate, h1]
  · simp [update_task, hval, TaskUpdate.isEmptyUpdate, h1, h2]

/-- Witness for C10: flipping a concrete pending task to `completed = false`. -/
theorem update_completed_false_applied_witness :
    (update_task exDb exOid1 { completed := some false } "2025-01-02T10:00:00").1 =
      .ok (task_helper
        { exDoc1 with completed := false, updatedAt := some "2025-01-02T10:00:00" }) :=
  (update_completed_false_applied exDb exOid1 "2025-01-02T10:00:00" exDoc1
    (by decide) (by decide)).1

theorem mem_insertByCreatedAtDesc {a d : TaskDoc} : ∀ {l : List TaskDoc},
    a ∈ insertByCreatedAtDesc d l ↔ a = d ∨ a ∈ l := by
  intro l
  induction l with
  | nil => simp [insertByCreatedAtDesc]
  | cons e es ih =>
    simp only [insertByCreatedAtDesc]
    split
    · simp [List.mem_cons]
    · simp only [List.mem_cons, ih]
      tauto

theorem mem_sortByCreatedAtDesc {a : TaskDoc} : ∀ {l : List TaskDoc},
    a ∈ sortByCreatedAtDesc l ↔ a ∈ l := by
  intro l
  induction l with
  | nil => simp [sortByCreatedAtDesc]
  | cons e es ih =>
    simp only [sortByCreatedAtDesc, mem_insertByCreatedAtDesc, ih, List.mem_cons]

theorem buildQuery_category_of_mem (c : String) (pr : Option String)
    (cmp : Option Bool) (hc : c ∈ categoryValues) :
    (buildQuery (some c) pr cmp).category = some c := by
  have hguard : (strTruthy (some c) &&
      decide ((some c).getD "" ∈ categoryValues)) = true := by
    fin_cases hc <;> decide
  simp only [buildQuery, hguard, if_true]
  by_cases h2 : (strTruthy pr && decide (pr.getD "" ∈ priorityValues)) = true <;>
    cases cmp <;> simp [h2]

theorem buildQuery_category_not_mem (c : String) (pr : Option String)
    (cmp : Option Bool) (hc : c ∉ categoryValues) :
    buildQuery (some c) pr cmp = buildQuery none pr cmp := by
  have hfalse : (strTruthy (some c) &&
      decide ((some c).getD "" ∈ categoryValues)) = false := by
    simp [hc]
  have hfalse' : (strTruthy (none : Option String) &&
      decide ((none : Option String).getD "" ∈ categoryValues)) = false := rfl
  simp only [buildQuery, hfalse, hfalse', Bool.false_eq_true, if_false]

theorem buildQuery_priority_of_mem (p : String) (cat : Option String)
    (cmp : Option Bool) (hp : p ∈ priorityValues) :
    (buildQuery cat (some p) cmp).priority = some p := by
  have hguard : (strTruthy (some p) &&
      decide ((some p).getD "" ∈ priorityValues)) = true := by
    fin_cases hp <;> decide
  simp only [buildQuery, hguard, if_true]
  by_cases h1 : (strTruthy cat && decide (cat.getD "" ∈ categoryValues)) = true <;>
    cases cmp <;> simp [h1]

theorem buildQuery_priority_not_mem (p : String) (cat : Option String)
    (cmp : Option Bool) (hp : p ∉ priorityValues) :
    buildQuery cat (some p) cmp = buildQuery cat none cmp := by
  have hfalse : (strTruthy (some p) &&
      decide ((some p).getD "" ∈ priorityValues)) = false := by
    simp [hp]
  have hfalse' : (strTruthy (none : Option String) &&
      decide ((none : Option String).getD "" ∈ priorityValues)) = false := rfl
  simp only [buildQuery, hfalse, hfalse', Bool.false_eq_true, if_false]

theorem category_eq_of_matches (q : TasksQuery) (d : TaskDoc) (c : String)
    (hq : q.category = some c) (hm : matchesQuery q d = true) : d.category = c := by
  rw [matchesQuery, hq] at hm
  simp only [Bool.and_eq_true, beq_iff_eq] at hm
  exact hm.1.1

theorem priority_eq_of_matches (q : TasksQuery) (d : TaskDoc) (p : String)
    (hq : q.priority = some p) (hm : matchesQuery q d = true) : d.priority = p := by
  rw [matchesQuery, hq] at hm
  simp only [Bool.and_eq_true, beq_iff_eq] at hm
  exact hm.1.2

theorem syncInsertLoop_spec (fresh : Nat → String) (now : String) :
    ∀ (ts : List Task) (k : Nat) (acc : DB),
      ((acc.map fun d => d.oid) ++ syncOids ts fresh k).Nodup →
      syncInsertLoop ts fresh k now acc =
        ((syncDocs ts fresh k now).map task_helper, acc ++ syncDocs ts fresh k now) := by
  intro ts
  induction ts with
  | nil =>
    intro k acc _
    simp [syncInsertLoop, syncDocs]
  | cons t rest ih =>
    intro k acc hnd
    have hmem_head : (syncOid t fresh k).1 ∈ syncOids (t :: rest) fresh k := by
      rw [show syncOids (t :: rest) fresh k =
        (syncOid t fresh k).1 :: syncOids rest fresh (syncOid t fresh k).2 from rfl]
      exact List.mem_cons_self _ _
    have hoid_notin : (syncOid t fresh k).1 ∉ acc.map fun d => d.oid := by
      rw [List.nodup_append] at hnd
      exact fun hin => hnd.2.2 hin hmem_head
    have hfind_none : findOne acc (syncOid t fresh k).1 = none := by
      rw [findOne, List.find?_eq_none]
      intro x hx hbe
      exact hoid_notin ((beq_iff_eq.mp hbe) ▸ List.mem_map_of_mem (fun d => d.oid) hx)
    have hfind : findOne (acc ++ [syncDoc t (syncOid t fresh k).1 now])
        (syncOid t fresh k).1 = some (syncDoc t (syncOid t fresh k).1 now) :=
      findOne_append_fresh acc _ _ hfind_none rfl
    have hnd' : (((acc ++ [syncDoc t (syncOid t fresh k).1 now]).map fun d => d.oid)
        ++ syncOids rest fresh (syncOid t fresh k).2).Nodup := by
      simpa [syncOids, List.append_assoc, syncDoc] using hnd
    have hih := ih (syncOid t fresh k).2 (acc ++ [syncDoc t (syncOid t fresh k).1 now]) hnd'
    simp only [syncInsertLoop, hfind, Option.getD_some, hih]
    simp [syncDocs, List.append_assoc]

theorem syncDocs_map_oid (fresh : Nat → String) (now : String) :
    ∀ (ts : List Task) (k : Nat),
      (syncDocs ts fresh k now).map (fun d => d.oid) = syncOids ts fresh k := by
  intro ts
  induction ts with
  | nil => intro k; rfl
  | cons t rest ih => intro k; simp [syncDocs, syncOids, syncDoc, ih]

theorem syncDocs_length (fresh : Nat → String) (now : String) :
    ∀ (ts : List Task) (k : Nat), (syncDocs ts fresh k now).length = ts.length := by
  intro ts
  induction ts with
  | nil => intro k; rfl
  | cons t rest ih => intro k; simp [syncDocs, ih]

theorem syncDocs_updatedAt (fresh : Nat → String) (now : String) :
    ∀ (ts : List Task) (k : Nat), ∀ d ∈ syncDocs ts fresh k now,
      d.updatedAt = some now := by
  intro ts
  induction ts with
  | nil => intro k d hd; cases hd
  | cons t rest ih =>
    intro k d hd
    rw [show syncDocs (t :: rest) fresh k now =
      syncDoc t (syncOid t fresh k).1 now ::
        syncDocs rest fresh (syncOid t fresh k).2 now from rfl] at hd
    rcases List.mem_cons.mp hd with h | h
    · rw [h]; rfl
    · exact ih (syncOid t fresh k).2 d h

theorem syncDocs_fields (fresh : Nat → String) (now : String) :
    ∀ (ts : List Task) (k : Nat), ∀ p ∈ (syncDocs ts fresh k now).zip ts,
      p.1.title = p.2.title ∧ p.1.dueDate = p.2.dueDate ∧
      p.1.priority = p.2.priority ∧ p.1.category = p.2.category ∧
      p.1.completed = p.2.completed ∧ p.1.createdAt = p.2.createdAt := by
  intro ts
  induction ts with
  | nil => intro k p hp; cases hp
  | cons t rest ih =>
    intro k p hp
    rw [show (syncDocs (t :: rest) fresh k now).zip (t :: rest) =
      (syncDoc t (syncOid t fresh k).1 now, t) ::
        (syncDocs rest fresh (syncOid t fresh k).2 now).zip rest from rfl] at hp
    rcases List.mem_cons.mp hp with h | h
    · rw [h]
      exact ⟨rfl, rfl, rfl, rfl, rfl, rfl⟩
    · exact ih (syncOid t fresh k).2 p h

/-- C3: for every input task list and prior collection state (with the
resolved insert ids pairwise distinct, as Mongo's unique `_id` guarantees),
Sync deletes every existing record and re-inserts exactly the documents of
the input list — the final collection is `syncDocs`, independent of the
prior state — each with `updatedAt` set to the sync time, the supplied id
kept only when truthy and valid and a fresh id otherwise, and returns the
reinserted records, an empty conflicts list and the sync timestamp. -/
theorem sync_full_replace (db : DB) (tasks : List Task) (fresh : Nat → String)
    (now : String) (hnd : (syncOids tasks fresh 0).Nodup) :
    sync_tasks db tasks fresh now =
      ({ tasks := (syncDocs tasks fresh 0 now).map task_helper,
         conflicts := [], syncTime := now }, syncDocs tasks fresh 0 now) ∧
    (syncDocs tasks fresh 0 now).map (fun d => d.oid) = syncOids tasks fresh 0 ∧
    (syncDocs tasks fresh 0 now).length = tasks.length ∧
    (∀ d ∈ syncDocs tasks fresh 0 now, d.updatedAt = some now) ∧
    (∀ p ∈ (syncDocs tasks fresh 0 now).zip tasks,
      p.1.title = p.2.title ∧ p.1.dueDate = p.2.dueDate ∧
      p.1.priority = p.2.priority ∧ p.1.category = p.2.category ∧
      p.1.completed = p.2.completed ∧ p.1.createdAt = p.2.createdAt) := by
  have hloop := syncInsertLoop_spec fresh now tasks 0 [] (by simpa using hnd)
  exact ⟨by simp [sync_tasks, hloop],
    syncDocs_map_oid fresh now tasks 0, syncDocs_length fresh now tasks 0,
    syncDocs_updatedAt fresh now tasks 0, syncDocs_fields fresh now tasks 0⟩

/-- Witness for C3: syncing two id-less tasks over a non-empty prior
collection yields exactly those two tasks under the two fresh ids, the
prior records gone. -/
theorem sync_full_replace_witness :
    sync_tasks exDb [exTask1, exTask2] exFresh "2025-01-07T00:00:00" =
      ({ tasks :=
          [{ exTask1 with id := some exOid3, updatedAt := some "2025-01-07T00:00:00" },
           { exTask2 with id := some exOid4, updatedAt := some "2025-01-07T00:00:00" }],
         conflicts := [], syncTime := "2025-01-07T00:00:00" },
       [syncDoc exTask1 exOid3 "2025-01-07T00:00:00",
        syncDoc exTask2 exOid4 "2025-01-07T00:00:00"]) :=
  (sync_full_replace exDb [exTask1, exTask2] exFresh "2025-01-07T00:00:00"
    (by decide)).1

/-- C4: the daily trend of the Stats report has exactly one entry for each
of the last 7 calendar days — entry `j` of the output is the entry of the
day `6 - j` days ago, so the order is oldest-first with today last — and
each entry counts the tasks created in that day's window together with
those of them that are completed (as `dayEntry` does). -/
theorem daily_trends_seven_days (db : DB) (clk : StatsClock) :
    (get_stats db clk).dailyTrends.length = 7 ∧
    ∀ j, j < 7 → (get_stats db clk).dailyTrends.get? j =
      some (dayEntry db (clk.days (6 - j))) := by
  refine ⟨rfl, ?_⟩
  intro j hj
  interval_cases j <;> rfl

/-- Witness for C4: the first output entry of a concrete report is the
entry of the window six days back. -/
theorem daily_trends_seven_days_witness :
    (get_stats exDb exClock).dailyTrends.get? 0 =
      some (dayEntry exDb (exClock.days 6)) :=
  (daily_trends_seven_days exDb exClock).2 0 (by decide)

/-- C5: for every collection state, the insights `productivityScore` equals
the raw completion rate plus 10 when the overdue count is 0, and the raw
completion rate minus 2 times the overdue count otherwise, rounded to one
decimal — with no clamping to any bound. -/
theorem productivity_score_unclamped (db : DB) (clk : StatsClock) :
    (get_stats db clk).insights.productivityScore =
      (if countDocuments db
            (fun d => !d.completed && decide (d.dueDate < clk.currentTime)) = 0
       then round1
          ((if 0 < countDocuments db (fun _ => true) then
              (countDocuments db (fun d => d.completed) : ℚ) /
                (countDocuments db (fun _ => true) : ℚ) * 100
            else 0) + 10)
       else round1
          ((if 0 < countDocuments db (fun _ => true) then
              (countDocuments db (fun d => d.completed) : ℚ) /
                (countDocuments db (fun _ => true) : ℚ) * 100
            else 0) -
            2 * (countDocuments db
              (fun d => !d.completed && decide (d.dueDate < clk.currentTime)) : ℚ))) := by
  by_cases h : countDocuments db
      (fun d => !d.completed && decide (d.dueDate < clk.currentTime)) = 0
  · simp only [get_stats]
    rw [h]
    norm_num
  · simp only [get_stats]
    rw [if_neg h, if_neg (show ¬((countDocuments db
        (fun d => !d.completed && decide (d.dueDate < clk.currentTime)) == 0) = true)
      from by simpa [beq_iff_eq] using h)]
    congr 1
    ring

/-- C6: every rate field of the Stats and productivity reports is 0
whenever its denominator is 0; in particular Stats on the empty collection
yields `completionRate = 0` (the handlers are total functions of the
state, so no exception can arise). -/
theorem rates_zero_on_zero_denominators (db : DB) (clk : StatsClock)
    (wclk : WeeklyClock) :
    (get_stats [] clk).overview.completionRate = 0 ∧
    ((get_stats db clk).overview.totalTasks = 0 →
      (get_stats db clk).overview.completionRate = 0) ∧
    (∀ b ∈ (get_stats db clk).categoryStats, b.total = 0 → b.completionRate = 0) ∧
    (∀ b ∈ (get_stats db clk).priorityStats, b.total = 0 → b.completionRate = 0) ∧
    (∀ e ∈ (get_stats db clk).dailyTrends, e.created = 0 → e.completionRate = 0) ∧
    (∀ e ∈ (get_productivity_analytics db wclk).weeklyTrends,
      e.created = 0 → e.completionRate = 0) := by
  refine ⟨?_, ?_, ?_, ?_, ?_, ?_⟩
  · simp [get_stats, countDocuments, round1_zero]
  · intro h
    simp only [get_stats] at h ⊢
    rw [if_neg (by omega), round1_zero]
  · intro b hb h0
    simp only [get_stats, List.mem_map] at hb
    obtain ⟨g, _, rfl⟩ := hb
    simp only [bucketOut] at h0 ⊢
    rw [if_neg (by omega), round1_zero]
  · intro b hb h0
    simp only [get_stats, List.mem_map] at hb
    obtain ⟨g, _, rfl⟩ := hb
    simp only [bucketOut] at h0 ⊢
    rw [if_neg (by omega), round1_zero]
  · intro e he h0
    simp only [get_stats, List.mem_reverse, List.mem_map] at he
    obtain ⟨i, _, rfl⟩ := he
    simp only [dayEntry] at h0 ⊢
    rw [if_neg (by omega)]
  · intro e he h0
    simp only [get_productivity_analytics, List.mem_reverse, List.mem_map] at he
    obtain ⟨i, _, rfl⟩ := he
    simp only [weekEntry] at h0 ⊢
    rw [if_neg (by omega), round1_zero]

/-- Witness for C6: the empty collection gives a zero overall completion
rate and a zero rate in a week bucket with zero created tasks. -/
theorem rates_zero_on_zero_denominators_witness :
    (get_stats [] exClock).overview.completionRate = 0 ∧
    (weekEntry [] exWWindow 3).completionRate = 0 :=
  ⟨(rates_zero_on_zero_denominators [] exClock exWClock).1,
   (rates_zero_on_zero_denominators [] exClock exWClock).2.2.2.2.2
     (weekEntry [] exWWindow 3)
     (List.mem_reverse.mpr (List.mem_map_of_mem
       (fun i => weekEntry [] (exWClock.weeks i) i) (by decide)))
     (by rfl)⟩

/-- C9: List with a category filter value inside the enumeration returns
only records with that category, while a value outside the enumeration is
silently ignored — the result equals the same call without the category
filter — rather than rejected; and the same holds for the priority
filter. -/
theorem list_filters_enum_or_ignored (db : DB) (c p : String)
    (cat pr : Option String) (cmp : Option Bool) (lim : Nat) :
    (c ∈ categoryValues →
      ∀ t ∈ get_tasks db (some c) pr cmp lim, t.category = c) ∧
    (c ∉ categoryValues →
      get_tasks db (some c) pr cmp lim = get_tasks db none pr cmp lim) ∧
    (p ∈ priorityValues →
      ∀ t ∈ get_tasks db cat (some p) cmp lim, t.priority = p) ∧
    (p ∉ priorityValues →
      get_tasks db cat (some p) cmp lim = get_tasks db cat none cmp lim) := by
  refine ⟨?_, ?_, ?_, ?_⟩
  · intro hc t ht
    simp only [get_tasks, List.mem_map] at ht
    obtain ⟨d, hd, rfl⟩ := ht
    have hd' := mem_sortByCreatedAtDesc.mp (List.take_subset _ _ hd)
    rw [List.mem_filter] at hd'
    exact category_eq_of_matches _ d c (buildQuery_category_of_mem c pr cmp hc) hd'.2
  · intro hc
    rw [get_tasks, get_tasks, buildQuery_category_not_mem c pr cmp hc]
  · intro hp t ht
    simp only [get_tasks, List.mem_map] at ht
    obtain ⟨d, hd, rfl⟩ := ht
    have hd' := mem_sortByCreatedAtDesc.mp (List.take_subset _ _ hd)
    rw [List.mem_filter] at hd'
    exact priority_eq_of_matches _ d p (buildQuery_priority_of_mem p cat cmp hp) hd'.2
  · intro hp
    rw [get_tasks, get_tasks, buildQuery_priority_not_mem p cat cmp hp]

/-- Witness for C9: on a concrete collection, the `work` filter returns
the work record, an unknown category value leaves the result equal to the
unfiltered call, and likewise for the priority filter. -/
theorem list_filters_enum_or_ignored_witness :
    (task_helper exDoc2).category = "work" ∧
    get_tasks exDb (some "bogus") none none 100 = get_tasks exDb none none none 100 ∧
    (task_helper exDoc2).priority = "high" ∧
    get_tasks exDb none (some "urgent") none 100 = get_tasks exDb none none none 100 :=
  ⟨(list_filters_enum_or_ignored exDb "work" "high" none none none 100).1
      (by decide) (task_helper exDoc2) (by decide),
   (list_filters_enum_or_ignored exDb "bogus" "high" none none none 100).2.1
      (by decide),
   (list_filters_enum_or_ignored exDb "work" "high" none none none 100).2.2.1
      (by decide) (task_helper exDoc2) (by decide),
   (list_filters_enum_or_ignored exDb "work" "urgent" none none none 100).2.2.2
      (by decide)⟩

end TaskMaster
